import Mathlib

/-!
Shallow embedding of the birblinds motor-control subsystem
(src/src/MotorControl.cpp, src/src/main.cpp, src/src/Storage.cpp,
src/include/config.h).  The C++ globals become a state record; the
limit-switch pins and mutex acquisitions become oracle functions in an
environment record, consumed deterministically (switch readings during
guarded moves are a function of the tracked position; seek-loop readings
during calibration and homing are a function of the loop iteration; lock
outcomes are a function of a running attempt counter `tick`).
Step pulses emitted on STEP_PIN are counted in `pulses`; EEPROM writes are
counted in `saves` and the stored record kept in `eeprom`.
-/

namespace BirbBlinds

/-- `EEPROM_MAGIC_NUMBER` from config.h: 0xBD01. -/
def EEPROM_MAGIC_NUMBER : Nat := 0xBD01

/-- `DEFAULT_SAFETY_BUFFER` from config.h: 200 steps. -/
def DEFAULT_SAFETY_BUFFER : Int := 200

/-- `maxCalibrationSteps` / `maxSteps` bound used by the seek loops. -/
def maxCalibrationSteps : Nat := 50000

/-- The `MotorCommand` enum (MotorControl.h / main.cpp). -/
inductive MotorCommand
  | CMD_NONE
  | CMD_DEPLOY
  | CMD_RETRACT
  | CMD_CALIBRATE
  deriving DecidableEq, Repr

/-- The persisted EEPROM record: magic marker, deployed endpoint,
safety buffer (Storage.cpp / config.h addresses 0, 4, 8). -/
@[ext] structure EEPROMState where
  magic : Nat
  deployed : Int
  buffer : Int
  deriving DecidableEq, Repr

/-- The mutable state of the motor-control subsystem: the static members of
`MotorControl` (equivalently the globals of main.cpp), plus the modelled
EEPROM contents, a count of STEP pulses emitted, a count of EEPROM save
operations, and the lock-attempt counter `tick`. -/
@[ext] structure MCState where
  currentPosition : Int
  retractedPosition : Int
  deployedPosition : Int
  safeDeployedPosition : Int
  safetyBuffer : Int
  calibrated : Bool
  pendingCommand : MotorCommand
  eeprom : EEPROMState
  pulses : Nat
  saves : Nat
  tick : Nat
  deriving DecidableEq, Repr

/-- The environment: limit-switch readings and mutex-acquisition outcomes.
`depHit`/`retHit` give the switch reading as a function of the tracked
position (used by the per-pulse interlock of `moveSteps`); `retSeek` /
`depSeek` give the readings of the calibration/homing seek loops as a
function of the loop iteration; `lockOk n` tells whether the n-th
`xSemaphoreTake` in program order succeeds within its timeout. -/
structure Env where
  depHit : Int → Bool
  retHit : Int → Bool
  retSeek : Nat → Bool
  depSeek : Nat → Bool
  lockOk : Nat → Bool

/-- One timed `xSemaphoreTake` attempt: consumes a tick, reports success. -/
def tryLock (env : Env) (s : MCState) : Bool × MCState :=
  (env.lockOk s.tick, { s with tick := s.tick + 1 })

/-- `MotorControl::getPosition` (MotorControl.cpp 74-83, main.cpp 329-338):
`long pos = 0; if (take(positionMutex, 100ms)) pos = currentPosition;
return pos;` — on a failed acquisition the local default 0 is returned. -/
def getPosition (env : Env) (s : MCState) : Int × MCState :=
  let r := tryLock env s
  if r.1 then (r.2.currentPosition, r.2) else (0, r.2)

/-- `MotorControl::setPosition` (MotorControl.cpp 85-92): writes under the
position mutex; a failed acquisition silently drops the write. -/
def setPosition (env : Env) (p : Int) (s : MCState) : MCState :=
  let r := tryLock env s
  if r.1 then { r.2 with currentPosition := p } else r.2

/-- `MotorControl::queueCommand` (MotorControl.cpp 94-101): overwrites the
pending command under the command mutex. -/
def queueCommand (env : Env) (c : MotorCommand) (s : MCState) : MCState :=
  let r := tryLock env s
  if r.1 then { r.2 with pendingCommand := c } else r.2

/-- `MotorControl::getQueuedCommand` (MotorControl.cpp 103-112): reads the
pending command under the command mutex WITHOUT clearing it; returns
CMD_NONE when the acquisition fails. -/
def getQueuedCommand (env : Env) (s : MCState) : MotorCommand × MCState :=
  let r := tryLock env s
  if r.1 then (r.2.pendingCommand, r.2) else (MotorCommand.CMD_NONE, r.2)

/-- `MotorControl::clearQueuedCommand` (MotorControl.cpp 114-121): resets
the pending command to CMD_NONE under the command mutex. -/
def clearQueuedCommand (env : Env) (s : MCState) : MCState :=
  let r := tryLock env s
  if r.1 then { r.2 with pendingCommand := MotorCommand.CMD_NONE } else r.2

/-- The control task's inline dequeue (main.cpp 258-263): in one critical
section the pending command is read and reset to CMD_NONE; `none` means the
acquisition failed and nothing was observed or cleared. -/
def dequeueAndClear (env : Env) (s : MCState) : Option MotorCommand × MCState :=
  let r := tryLock env s
  if r.1 then (some r.2.pendingCommand, { r.2 with pendingCommand := MotorCommand.CMD_NONE })
  else (none, r.2)

/-- `MotorControl::saveCurrentCalibration` / `Storage::saveCalibration`
(Storage.cpp 40-48): writes magic, deployed endpoint and safety buffer to
EEPROM synchronously; `saves` counts the invocations. -/
def saveCurrentCalibration (s : MCState) : MCState :=
  { s with
    eeprom := ⟨EEPROM_MAGIC_NUMBER, s.deployedPosition, s.safetyBuffer⟩,
    saves := s.saves + 1 }

/-- The deployed-limit interlock branch of `moveSteps` (MotorControl.cpp
140-160): read the position, and when it differs from the recorded deployed
endpoint overwrite the endpoint, recompute the safe endpoint and persist;
finally snap the position to the (possibly corrected) deployed endpoint. -/
def depLimitBranch (env : Env) (s : MCState) : MCState :=
  let r := getPosition env s
  let s2 :=
    if r.1 ≠ r.2.deployedPosition then
      saveCurrentCalibration
        { r.2 with
          deployedPosition := r.1,
          safeDeployedPosition := r.1 - r.2.safetyBuffer }
    else r.2
  setPosition env s2.deployedPosition s2

/-- The retracted-limit interlock branch of `moveSteps` (MotorControl.cpp
161-174): when the tracked position is nonzero, snap it to 0 and reset the
retracted endpoint to 0. -/
def retLimitBranch (env : Env) (s : MCState) : MCState :=
  let r := getPosition env s
  if r.1 ≠ 0 then
    { setPosition env 0 r.2 with retractedPosition := 0 }
  else r.2

/-- One pulse of the `moveSteps` loop body (MotorControl.cpp 177-187):
emit the STEP pulse, then increment or decrement the position under the
position mutex (a failed 1 ms acquisition drops the update). -/
def pulseStep (env : Env) (forward : Bool) (s : MCState) : MCState :=
  let s1 := { s with pulses := s.pulses + 1 }
  let r := tryLock env s1
  if r.1 then
    { r.2 with currentPosition := r.2.currentPosition + (if forward then 1 else -1) }
  else r.2

/-- The pulse loop of `moveSteps` (MotorControl.cpp 135-188): before each
pulse, when limit checking is enabled, an asserted limit switch in the
direction of travel aborts the remaining steps via the matching branch. -/
def msLoop (env : Env) (checkLimits forward : Bool) : Nat → MCState → MCState
  | 0, s => s
  | n + 1, s =>
    if checkLimits && forward && env.depHit s.currentPosition then
      depLimitBranch env s
    else if checkLimits && !forward && env.retHit s.currentPosition then
      retLimitBranch env s
    else
      msLoop env checkLimits forward n (pulseStep env forward s)

/-- `MotorControl::moveSteps` (MotorControl.cpp 123-189, main.cpp 352-418):
zero steps is a no-op; otherwise the direction is the sign of `steps` and
`|steps|` pulses are attempted. -/
def moveSteps (env : Env) (steps : Int) (checkLimits : Bool) (s : MCState) : MCState :=
  if steps = 0 then s
  else msLoop env checkLimits (decide (0 < steps)) steps.natAbs s

/-- `MotorControl::moveToPosition` (MotorControl.cpp 292-307): compute the
delta from the current position; no-op when zero, otherwise delegate to
`moveSteps` with limit checking enabled. -/
def moveToPosition (env : Env) (target : Int) (s : MCState) : MCState :=
  let r := getPosition env s
  if target - r.1 = 0 then r.2
  else moveSteps env (target - r.1) true r.2

/-- `MotorControl::deploy` (MotorControl.cpp 266-279): rejected when not
calibrated (state unchanged); otherwise move to the safe deployed
position. -/
def deploy (env : Env) (s : MCState) : MCState :=
  if !s.calibrated then s
  else moveToPosition env s.safeDeployedPosition s

/-- `MotorControl::retract` (MotorControl.cpp 281-290): rejected when not
calibrated; otherwise move to the retracted position. -/
def retract (env : Env) (s : MCState) : MCState :=
  if !s.calibrated then s
  else moveToPosition env s.retractedPosition s

/-- Number of pulses emitted by a bounded seek loop
(`for (i = 0; i < budget; i++) { if (hit()) break; pulse(); }`):
the index of the first asserted reading, capped at the budget. -/
def seekSteps (f : Nat → Bool) : Nat → Nat → Nat
  | 0, _ => 0
  | b + 1, i => if f i then 0 else seekSteps f b (i + 1) + 1

/-- `MotorControl::calibrate` (MotorControl.cpp 191-264, main.cpp 420-493):
seek the retracted limit (bounded), zero the position and retracted
endpoint, seek the deployed limit counting steps, record the count as the
deployed endpoint, set the position to it, compute the safe endpoint, mark
calibrated, persist, then invoke `retract()`. -/
def calibrate (env : Env) (s : MCState) : MCState :=
  let retPulses := seekSteps env.retSeek maxCalibrationSteps 0
  let s1 := { s with pulses := s.pulses + retPulses }
  let s2 := { setPosition env 0 s1 with retractedPosition := 0 }
  let stepCount := seekSteps env.depSeek maxCalibrationSteps 0
  let s3 := { s2 with
              pulses := s2.pulses + stepCount,
              deployedPosition := (stepCount : Int) }
  let s4 := setPosition env s3.deployedPosition s3
  let s5 := { s4 with
              safeDeployedPosition := s4.deployedPosition - s4.safetyBuffer,
              calibrated := true }
  retract env (saveCurrentCalibration s5)

/-- `MotorControl::homeToRetractedPosition` (MotorControl.cpp 309-340):
seek the retracted limit with the same bound; the loop performs one switch
reading per condition evaluation and the trailing `if` reads once more, at
index k+1 where k is the number of pulses emitted; on an asserted final
reading the position and retracted endpoint are zeroed. -/
def homeToRetractedPosition (env : Env) (s : MCState) : MCState :=
  let k := seekSteps env.retSeek maxCalibrationSteps 0
  let s1 := { s with pulses := s.pulses + k }
  if env.retSeek (k + 1) then
    { setPosition env 0 s1 with retractedPosition := 0 }
  else s1

/-- `Storage::loadCalibration` (Storage.cpp 10-38): fails unless the magic
marker matches; fails when the stored deployed endpoint is outside
(0, 100000]; otherwise yields the deployed endpoint and safety buffer. -/
def loadCalibration (e : EEPROMState) : Option (Int × Int) :=
  if e.magic ≠ EEPROM_MAGIC_NUMBER then none
  else if e.deployed ≤ 0 ∨ 100000 < e.deployed then none
  else some (e.deployed, e.buffer)

/-- `MotorControl::loadStoredCalibration` (MotorControl.cpp 342-358): on a
successful load install the endpoint and buffer, recompute the safe
endpoint, zero the retracted endpoint and mark calibrated; otherwise
report failure and change nothing. -/
def loadStoredCalibration (s : MCState) : Bool × MCState :=
  match loadCalibration s.eeprom with
  | some (d, b) =>
    (true, { s with
             deployedPosition := d,
             safetyBuffer := b,
             safeDeployedPosition := d - b,
             retractedPosition := 0,
             calibrated := true })
  | none => (false, s)

/-- Boot values of the C++ globals (MotorControl.cpp 5-14, main.cpp 53-58),
parametrized by whatever the EEPROM holds at power-up. -/
def initState (e : EEPROMState) : MCState :=
  { currentPosition := 0
    retractedPosition := 0
    deployedPosition := 0
    safeDeployedPosition := 0
    safetyBuffer := DEFAULT_SAFETY_BUFFER
    calibrated := false
    pendingCommand := MotorCommand.CMD_NONE
    eeprom := e
    pulses := 0
    saves := 0
    tick := 0 }

/-- The operations callable on the subsystem, for reachability. -/
inductive MotorOp
  | ms (steps : Int) (checkLimits : Bool)
  | mtp (target : Int)
  | dep
  | ret
  | cal
  | home
  | loadStored
  | queue (c : MotorCommand)
  | dq
  | getPos
  | setPos (p : Int)

/-- Interpretation of one operation. -/
def applyOp (env : Env) : MotorOp → MCState → MCState
  | MotorOp.ms k b, s => moveSteps env k b s
  | MotorOp.mtp t, s => moveToPosition env t s
  | MotorOp.dep, s => deploy env s
  | MotorOp.ret, s => retract env s
  | MotorOp.cal, s => calibrate env s
  | MotorOp.home, s => homeToRetractedPosition env s
  | MotorOp.loadStored, s => (loadStoredCalibration s).2
  | MotorOp.queue c, s => queueCommand env c s
  | MotorOp.dq, s => (dequeueAndClear env s).2
  | MotorOp.getPos, s => (getPosition env s).2
  | MotorOp.setPos p, s => setPosition env p s

/-- States reachable from a boot state through any sequence of operations,
each under an arbitrary environment. -/
inductive Reachable : MCState → Prop
  | boot (e : EEPROMState) : Reachable (initState e)
  | step (env : Env) (op : MotorOp) (s : MCState) :
      Reachable s → Reachable (applyOp env op s)

/-- A sequence of `moveSteps` calls with limit checking enabled. -/
def runMoves (env : Env) : List Int → MCState → MCState
  | [], s => s
  | k :: ks, s => runMoves env ks (moveSteps env k true s)

/-- Environment whose switches never assert and whose locks always
succeed. -/
def freeEnv : Env :=
  ⟨fun _ => false, fun _ => false, fun _ => false, fun _ => false, fun _ => true⟩

/-- The calibration-range relation: the safe deployed endpoint is the
deployed endpoint minus the safety buffer, and the retracted endpoint
is 0. -/
def StructOK (s : MCState) : Prop :=
  s.safeDeployedPosition = s.deployedPosition - s.safetyBuffer ∧
  s.retractedPosition = 0

/-- The calibrated-state invariant: whenever the calibrated flag is set,
the range relation `StructOK` holds. -/
def CalibOK (s : MCState) : Prop := s.calibrated = true → StructOK s

/-- Every timed mutex acquisition succeeds. -/
def locksFree (env : Env) : Prop := ∀ n, env.lockOk n = true

/-- Environment where both switches assert everywhere and locks succeed. -/
def allHitEnv : Env :=
  ⟨fun _ => true, fun _ => true, fun _ => false, fun _ => false, fun _ => true⟩

/-- Environment where every lock acquisition times out. -/
def lockFailEnv : Env :=
  ⟨fun _ => false, fun _ => false, fun _ => false, fun _ => false, fun _ => false⟩

/-- Environment where only the very first lock acquisition succeeds. -/
def firstLockEnv : Env :=
  ⟨fun _ => false, fun _ => false, fun _ => false, fun _ => false,
   fun n => decide (n = 0)⟩

/-- Physical end-stop environment with the deployed switch at 10. -/
def envTen : Env :=
  ⟨fun p => decide (10 ≤ p), fun p => decide (p ≤ 0), fun _ => false,
   fun _ => false, fun _ => true⟩

/-- End-stop environment matching the spec's overshoot scenario: the
deployed switch physically asserts at 12050. -/
def envOvershoot : Env :=
  ⟨fun p => decide (12050 ≤ p), fun p => decide (p ≤ 0), fun _ => false,
   fun _ => false, fun _ => true⟩

/-- Calibration environment: the retracted seek finds its switch after 2
pulses, the deployed seek after 5, locks always succeed. -/
def calibEnv : Env :=
  ⟨fun p => decide (5 ≤ p), fun p => decide (p ≤ 0), fun i => decide (2 ≤ i),
   fun i => decide (5 ≤ i), fun _ => true⟩

/-- A calibrated state with deployed endpoint 5 and position 0. -/
def cal5State : MCState :=
  { initState ⟨0, 0, 0⟩ with
    calibrated := true, deployedPosition := 5, safeDeployedPosition := 4,
    safetyBuffer := 1 }

/-- A calibrated state with deployed endpoint 10, buffer 2, at home. -/
def calTenState : MCState :=
  { initState ⟨0, 0, 0⟩ with
    calibrated := true, deployedPosition := 10, safeDeployedPosition := 8,
    safetyBuffer := 2 }

/-- The spec's overshoot scenario: tracked position 12050 with the recorded
deployed endpoint still 12000 and buffer 200. -/
def sOvershoot : MCState :=
  { initState ⟨EEPROM_MAGIC_NUMBER, 12000, 200⟩ with
    calibrated := true, currentPosition := 12050, deployedPosition := 12000,
    safeDeployedPosition := 11800 }

/-- A state with a command pending in the mailbox. -/
def pendState : MCState :=
  { initState ⟨0, 0, 0⟩ with pendingCommand := MotorCommand.CMD_DEPLOY }

/-- A state whose tracked position is 7. -/
def posState : MCState :=
  { initState ⟨0, 0, 0⟩ with currentPosition := 7 }

/-- An EEPROM record that passes `loadCalibration`'s validation. -/
def validEEPROM : EEPROMState := ⟨EEPROM_MAGIC_NUMBER, 100, 10⟩

/-- The state `calibrate` hands to its final `retract()` call when every
lock acquisition succeeds (both seek loops completed, endpoints and safe
endpoint recorded, calibration persisted). -/
def preRetractState (env : Env) (s : MCState) : MCState :=
  { s with
    currentPosition := (seekSteps env.depSeek maxCalibrationSteps 0 : Int),
    retractedPosition := 0,
    deployedPosition := (seekSteps env.depSeek maxCalibrationSteps 0 : Int),
    safeDeployedPosition :=
      (seekSteps env.depSeek maxCalibrationSteps 0 : Int) - s.safetyBuffer,
    calibrated := true,
    eeprom := ⟨EEPROM_MAGIC_NUMBER,
      (seekSteps env.depSeek maxCalibrationSteps 0 : Int), s.safetyBuffer⟩,
    pulses := s.pulses + seekSteps env.retSeek maxCalibrationSteps 0 +
      seekSteps env.depSeek maxCalibrationSteps 0,
    saves := s.saves + 1,
    tick := s.tick + 1 + 1 }

theorem calibOK_setPosition (env : Env) (p : Int) (s : MCState)
    (h : CalibOK s) : CalibOK (setPosition env p s) := by
  unfold CalibOK StructOK at *
  by_cases hk : env.lockOk s.tick = true <;>
    simpa [setPosition, tryLock, hk] using h

theorem calibOK_getPosition (env : Env) (s : MCState)
    (h : CalibOK s) : CalibOK (getPosition env s).2 := by
  unfold CalibOK StructOK at *
  by_cases hk : env.lockOk s.tick = true <;>
    simpa [getPosition, tryLock, hk] using h

theorem calibOK_queueCommand (env : Env) (c : MotorCommand) (s : MCState)
    (h : CalibOK s) : CalibOK (queueCommand env c s) := by
  unfold CalibOK StructOK at *
  by_cases hk : env.lockOk s.tick = true <;>
    simpa [queueCommand, tryLock, hk] using h

theorem calibOK_dequeueAndClear (env : Env) (s : MCState)
    (h : CalibOK s) : CalibOK (dequeueAndClear env s).2 := by
  unfold CalibOK StructOK at *
  by_cases hk : env.lockOk s.tick = true <;>
    simpa [dequeueAndClear, tryLock, hk] using h

theorem calibOK_save (s : MCState)
    (h : CalibOK s) : CalibOK (saveCurrentCalibration s) := by
  unfold CalibOK StructOK at *
  simpa [saveCurrentCalibration] using h

theorem calibOK_pulseStep (env : Env) (fwd : Bool) (s : MCState)
    (h : CalibOK s) : CalibOK (pulseStep env fwd s) := by
  unfold CalibOK StructOK at *
  by_cases hk : env.lockOk s.tick = true <;>
    simpa [pulseStep, tryLock, hk] using h

theorem calibOK_depLimitBranch (env : Env) (s : MCState)
    (h : CalibOK s) : CalibOK (depLimitBranch env s) := by
  unfold depLimitBranch
  apply calibOK_setPosition
  unfold CalibOK StructOK at *
  by_cases hk : env.lockOk s.tick = true <;>
    by_cases hc : (getPosition env s).1 = (getPosition env s).2.deployedPosition <;>
      simp_all [getPosition, tryLock, saveCurrentCalibration, hk]

theorem calibOK_retLimitBranch (env : Env) (s : MCState)
    (h : CalibOK s) : CalibOK (retLimitBranch env s) := by
  unfold CalibOK StructOK at *
  by_cases hk : env.lockOk s.tick = true <;>
    by_cases hk2 : env.lockOk (s.tick + 1) = true <;>
      by_cases hc : (getPosition env s).1 = 0 <;>
        simp_all [retLimitBranch, getPosition, setPosition, tryLock, hk, hk2]

theorem calibOK_msLoop (env : Env) (cl fwd : Bool) (n : Nat) (s : MCState)
    (h : CalibOK s) : CalibOK (msLoop env cl fwd n s) := by
  induction n generalizing s with
  | zero => simpa [msLoop] using h
  | succ n ih =>
    unfold msLoop
    split
    · exact calibOK_depLimitBranch env s h
    · split
      · exact calibOK_retLimitBranch env s h
      · exact ih _ (calibOK_pulseStep env fwd s h)

theorem calibOK_moveSteps (env : Env) (k : Int) (cl : Bool) (s : MCState)
    (h : CalibOK s) : CalibOK (moveSteps env k cl s) := by
  unfold moveSteps
  split
  · exact h
  · exact calibOK_msLoop env cl _ _ s h

theorem calibOK_moveToPosition (env : Env) (t : Int) (s : MCState)
    (h : CalibOK s) : CalibOK (moveToPosition env t s) := by
  unfold moveToPosition
  dsimp only
  by_cases hc : t - (getPosition env s).1 = 0
  · rw [if_pos hc]; exact calibOK_getPosition env s h
  · rw [if_neg hc]; exact calibOK_moveSteps env _ true _ (calibOK_getPosition env s h)

theorem calibOK_deploy (env : Env) (s : MCState)
    (h : CalibOK s) : CalibOK (deploy env s) := by
  unfold deploy
  split
  · exact h
  · exact calibOK_moveToPosition env _ s h

theorem calibOK_retract (env : Env) (s : MCState)
    (h : CalibOK s) : CalibOK (retract env s) := by
  unfold retract
  split
  · exact h
  · exact calibOK_moveToPosition env _ s h

theorem calibOK_calibrate (env : Env) (s : MCState) :
    CalibOK (calibrate env s) := by
  unfold calibrate
  apply calibOK_retract
  apply calibOK_save
  unfold CalibOK StructOK
  by_cases hk0 : env.lockOk s.tick = true <;>
    by_cases hk1 : env.lockOk (s.tick + 1) = true <;>
      simp [setPosition, tryLock, hk0, hk1]

theorem calibOK_home (env : Env) (s : MCState)
    (h : CalibOK s) : CalibOK (homeToRetractedPosition env s) := by
  unfold CalibOK StructOK at *
  by_cases hs : env.retSeek (seekSteps env.retSeek maxCalibrationSteps 0 + 1) = true <;>
    by_cases hk : env.lockOk s.tick = true <;>
      simp_all [homeToRetractedPosition, setPosition, tryLock, hk]

theorem calibOK_loadStored (s : MCState)
    (h : CalibOK s) : CalibOK (loadStoredCalibration s).2 := by
  unfold CalibOK StructOK loadStoredCalibration at *
  rcases hl : loadCalibration s.eeprom with _ | ⟨d, b⟩ <;> simp_all

theorem calibOK_applyOp (env : Env) (op : MotorOp) (s : MCState)
    (h : CalibOK s) : CalibOK (applyOp env op s) := by
  cases op with
  | ms k b => exact calibOK_moveSteps env k b s h
  | mtp t => exact calibOK_moveToPosition env t s h
  | dep => exact calibOK_deploy env s h
  | ret => exact calibOK_retract env s h
  | cal => exact calibOK_calibrate env s
  | home => exact calibOK_home env s h
  | loadStored => exact calibOK_loadStored s h
  | queue c => exact calibOK_queueCommand env c s h
  | dq => exact calibOK_dequeueAndClear env s h
  | getPos => exact calibOK_getPosition env s h
  | setPos p => exact calibOK_setPosition env p s h

theorem calibOK_reachable (s : MCState) (h : Reachable s) : CalibOK s := by
  induction h with
  | boot e => intro hc; simp [initState] at hc
  | step env op s _ ih => exact calibOK_applyOp env op s ih

theorem getPosition_ok (env : Env) (s : MCState) (h : env.lockOk s.tick = true) :
    getPosition env s = (s.currentPosition, { s with tick := s.tick + 1 }) := by
  simp [getPosition, tryLock, h]

theorem getPosition_fail (env : Env) (s : MCState) (h : env.lockOk s.tick = false) :
    getPosition env s = (0, { s with tick := s.tick + 1 }) := by
  simp [getPosition, tryLock, h]

theorem setPosition_ok (env : Env) (p : Int) (s : MCState) (h : env.lockOk s.tick = true) :
    setPosition env p s = { s with currentPosition := p, tick := s.tick + 1 } := by
  simp [setPosition, tryLock, h]

theorem setPosition_fail (env : Env) (p : Int) (s : MCState) (h : env.lockOk s.tick = false) :
    setPosition env p s = { s with tick := s.tick + 1 } := by
  simp [setPosition, tryLock, h]

theorem pulseStep_ok (env : Env) (fwd : Bool) (s : MCState) (h : env.lockOk s.tick = true) :
    pulseStep env fwd s =
      { s with currentPosition := s.currentPosition + (if fwd then 1 else -1),
               pulses := s.pulses + 1, tick := s.tick + 1 } := by
  simp [pulseStep, tryLock, h]

theorem pulseStep_fwd (env : Env) (s : MCState) (h : env.lockOk s.tick = true) :
    pulseStep env true s =
      { s with currentPosition := s.currentPosition + 1,
               pulses := s.pulses + 1, tick := s.tick + 1 } := by
  simp [pulseStep, tryLock, h]

theorem pulseStep_bwd (env : Env) (s : MCState) (h : env.lockOk s.tick = true) :
    pulseStep env false s =
      { s with currentPosition := s.currentPosition + -1,
               pulses := s.pulses + 1, tick := s.tick + 1 } := by
  simp [pulseStep, tryLock, h]

theorem depLimitBranch_free (env : Env) (s : MCState) (hl : locksFree env) :
    depLimitBranch env s =
      if s.currentPosition = s.deployedPosition then
        { s with currentPosition := s.deployedPosition, tick := s.tick + 1 + 1 }
      else
        { s with currentPosition := s.currentPosition,
                 deployedPosition := s.currentPosition,
                 safeDeployedPosition := s.currentPosition - s.safetyBuffer,
                 eeprom := ⟨EEPROM_MAGIC_NUMBER, s.currentPosition, s.safetyBuffer⟩,
                 saves := s.saves + 1,
                 tick := s.tick + 1 + 1 } := by
  unfold depLimitBranch
  rw [getPosition_ok env s (hl s.tick)]
  by_cases hc : s.currentPosition = s.deployedPosition <;>
    simp [hc, saveCurrentCalibration, setPosition, tryLock, hl _]

theorem retLimitBranch_free (env : Env) (s : MCState) (hl : locksFree env) :
    retLimitBranch env s =
      if s.currentPosition = 0 then { s with tick := s.tick + 1 }
      else { s with currentPosition := 0, retractedPosition := 0,
                    tick := s.tick + 1 + 1 } := by
  unfold retLimitBranch
  rw [getPosition_ok env s (hl s.tick)]
  by_cases hc : s.currentPosition = 0 <;>
    simp [hc, setPosition, tryLock, hl _]

/-- Position stays within `[0, deployedPosition]` through the guarded pulse
loop, provided the locks succeed, each limit switch asserts monotonically in
its direction of travel, the retracted switch asserts at position 0 and the
deployed switch asserts at the recorded deployed endpoint. -/
theorem msLoop_posInv (env : Env) (hl : locksFree env)
    (hmd : ∀ p q : Int, p ≤ q → env.depHit p = true → env.depHit q = true)
    (hmr : ∀ p q : Int, q ≤ p → env.retHit p = true → env.retHit q = true)
    (hr0 : env.retHit 0 = true) (fwd : Bool) :
    ∀ (n : Nat) (s : MCState),
      0 ≤ s.currentPosition → s.currentPosition ≤ s.deployedPosition →
      env.depHit s.deployedPosition = true →
      0 ≤ (msLoop env true fwd n s).currentPosition ∧
      (msLoop env true fwd n s).currentPosition ≤ (msLoop env true fwd n s).deployedPosition ∧
      env.depHit (msLoop env true fwd n s).deployedPosition = true := by
  intro n
  induction n with
  | zero => intro s h0 h1 h2; exact ⟨h0, h1, h2⟩
  | succ n ih =>
    intro s h0 h1 h2
    cases fwd with
    | true =>
      cases hdep : env.depHit s.currentPosition with
      | true =>
        have heq : msLoop env true true (n + 1) s = depLimitBranch env s := by
          simp [msLoop, hdep]
        rw [heq, depLimitBranch_free env s hl]
        by_cases hc : s.currentPosition = s.deployedPosition
        · rw [if_pos hc]
          exact ⟨by simp; omega, by simp, by simpa using h2⟩
        · rw [if_neg hc]
          exact ⟨by simpa using h0, by simp, by simpa using hdep⟩
      | false =>
        have heq : msLoop env true true (n + 1) s =
            msLoop env true true n (pulseStep env true s) := by
          simp [msLoop, hdep]
        have hlt : s.currentPosition < s.deployedPosition := by
          rcases lt_or_le s.currentPosition s.deployedPosition with h | h
          · exact h
          · rw [hmd s.deployedPosition s.currentPosition h h2] at hdep
            exact absurd hdep (by simp)
        rw [heq, pulseStep_ok env true s (hl _)]
        exact ih _ (by simp; omega) (by simp; omega) (by simpa using h2)
    | false =>
      cases hret : env.retHit s.currentPosition with
      | true =>
        have heq : msLoop env true false (n + 1) s = retLimitBranch env s := by
          simp [msLoop, hret]
        rw [heq, retLimitBranch_free env s hl]
        by_cases hc : s.currentPosition = 0
        · rw [if_pos hc]
          exact ⟨by simpa using h0, by simpa using h1, by simpa using h2⟩
        · rw [if_neg hc]
          exact ⟨by simp, by simp; omega, by simpa using h2⟩
      | false =>
        have heq : msLoop env true false (n + 1) s =
            msLoop env true false n (pulseStep env false s) := by
          simp [msLoop, hret]
        have hpos : 0 < s.currentPosition := by
          rcases lt_or_le 0 s.currentPosition with h | h
          · exact h
          · rw [hmr 0 s.currentPosition h hr0] at hret
            exact absurd hret (by simp)
        rw [heq, pulseStep_ok env false s (hl _)]
        exact ih _ (by simp; omega) (by simp; omega) (by simpa using h2)

theorem moveSteps_posInv (env : Env) (hl : locksFree env)
    (hmd : ∀ p q : Int, p ≤ q → env.depHit p = true → env.depHit q = true)
    (hmr : ∀ p q : Int, q ≤ p → env.retHit p = true → env.retHit q = true)
    (hr0 : env.retHit 0 = true) (k : Int) (s : MCState)
    (h0 : 0 ≤ s.currentPosition) (h1 : s.currentPosition ≤ s.deployedPosition)
    (h2 : env.depHit s.deployedPosition = true) :
    0 ≤ (moveSteps env k true s).currentPosition ∧
    (moveSteps env k true s).currentPosition ≤ (moveSteps env k true s).deployedPosition ∧
    env.depHit (moveSteps env k true s).deployedPosition = true := by
  unfold moveSteps
  split
  · exact ⟨h0, h1, h2⟩
  · exact msLoop_posInv env hl hmd hmr hr0 _ _ s h0 h1 h2

theorem runMoves_posInv (env : Env) (hl : locksFree env)
    (hmd : ∀ p q : Int, p ≤ q → env.depHit p = true → env.depHit q = true)
    (hmr : ∀ p q : Int, q ≤ p → env.retHit p = true → env.retHit q = true)
    (hr0 : env.retHit 0 = true) :
    ∀ (calls : List Int) (s : MCState),
      0 ≤ s.currentPosition → s.currentPosition ≤ s.deployedPosition →
      env.depHit s.deployedPosition = true →
      0 ≤ (runMoves env calls s).currentPosition ∧
      (runMoves env calls s).currentPosition ≤ (runMoves env calls s).deployedPosition ∧
      env.depHit (runMoves env calls s).deployedPosition = true := by
  intro calls
  induction calls with
  | nil => intro s h0 h1 h2; exact ⟨h0, h1, h2⟩
  | cons k ks ih =>
    intro s h0 h1 h2
    have h := moveSteps_posInv env hl hmd hmr hr0 k s h0 h1 h2
    exact ih _ h.1 h.2.1 h.2.2

/-- A forward guarded run that stays strictly below the deployed-switch
threshold `D` completes all its pulses. -/
theorem msLoop_fwd_exact (env : Env) (hl : locksFree env) (D : Int)
    (hd : ∀ p, env.depHit p = decide (D ≤ p)) :
    ∀ (n : Nat) (s : MCState), s.currentPosition + n ≤ D →
      msLoop env true true n s =
        { s with currentPosition := s.currentPosition + n,
                 pulses := s.pulses + n, tick := s.tick + n } := by
  intro n
  induction n with
  | zero => intro s _; simp [msLoop]
  | succ n ih =>
    intro s hle
    have hd0 : env.depHit s.currentPosition = false := by
      rw [hd]
      simp only [decide_eq_false_iff_not]
      omega
    have heq : msLoop env true true (n + 1) s =
        msLoop env true true n (pulseStep env true s) := by
      simp [msLoop, hd0]
    rw [heq, pulseStep_fwd env s (hl _),
        ih _ (by simp; omega)]
    apply MCState.ext <;> simp <;> omega

/-- A backward guarded run under a retracted switch that asserts exactly at
nonpositive positions: the position decreases by the pulse count but never
passes 0, and no calibration field changes. -/
theorem msLoop_bwd_exact (env : Env) (hl : locksFree env)
    (hr : ∀ p, env.retHit p = decide (p ≤ 0)) :
    ∀ (n : Nat) (s : MCState), 0 ≤ s.currentPosition →
      (msLoop env true false n s).currentPosition = max (s.currentPosition - n) 0 ∧
      (msLoop env true false n s).deployedPosition = s.deployedPosition ∧
      (msLoop env true false n s).safeDeployedPosition = s.safeDeployedPosition ∧
      (msLoop env true false n s).safetyBuffer = s.safetyBuffer ∧
      (msLoop env true false n s).calibrated = s.calibrated ∧
      (msLoop env true false n s).retractedPosition = s.retractedPosition ∧
      (msLoop env true false n s).saves = s.saves ∧
      (msLoop env true false n s).eeprom = s.eeprom := by
  intro n
  induction n with
  | zero =>
    intro s h0
    refine ⟨?_, rfl, rfl, rfl, rfl, rfl, rfl, rfl⟩
    simp [msLoop]
    omega
  | succ n ih =>
    intro s h0
    by_cases hz : s.currentPosition = 0
    · have hret : env.retHit s.currentPosition = true := by
        rw [hr]; simp [hz]
      have heq : msLoop env true false (n + 1) s = retLimitBranch env s := by
        simp [msLoop, hret]
      rw [heq, retLimitBranch_free env s hl, if_pos hz]
      exact ⟨by simp; omega, rfl, rfl, rfl, rfl, rfl, rfl, rfl⟩
    · have hret : env.retHit s.currentPosition = false := by
        rw [hr]
        simp only [decide_eq_false_iff_not]
        omega
      have heq : msLoop env true false (n + 1) s =
          msLoop env true false n (pulseStep env false s) := by
        simp [msLoop, hret]
      rw [heq, pulseStep_bwd env s (hl _)]
      obtain ⟨c1, c2, c3, c4, c5, c6, c7, c8⟩ := ih
        { s with currentPosition := s.currentPosition + -1,
                 pulses := s.pulses + 1, tick := s.tick + 1 }
        (by simp; omega)
      refine ⟨?_, by simpa using c2, by simpa using c3, by simpa using c4,
              by simpa using c5, by simpa using c6, by simpa using c7,
              by simpa using c8⟩
      rw [c1]
      simp only [MCState.currentPosition]
      push_cast
      omega

/-- A backward guarded run of exactly as many steps as the current position,
with all locks succeeding: the position reaches 0 whatever the retracted
switch does, and no calibration field changes; a retracted endpoint of 0 is
preserved. -/
theorem msLoop_bwd_toZero (env : Env) (hl : locksFree env) :
    ∀ (n : Nat) (s : MCState), s.currentPosition = (n : Int) →
      (msLoop env true false n s).currentPosition = 0 ∧
      (msLoop env true false n s).deployedPosition = s.deployedPosition ∧
      (msLoop env true false n s).safeDeployedPosition = s.safeDeployedPosition ∧
      (msLoop env true false n s).safetyBuffer = s.safetyBuffer ∧
      (msLoop env true false n s).calibrated = s.calibrated ∧
      (msLoop env true false n s).saves = s.saves ∧
      (msLoop env true false n s).eeprom = s.eeprom ∧
      (s.retractedPosition = 0 → (msLoop env true false n s).retractedPosition = 0) := by
  intro n
  induction n with
  | zero =>
    intro s h0
    exact ⟨by simpa [msLoop] using h0, rfl, rfl, rfl, rfl, rfl, rfl, fun h => h⟩
  | succ n ih =>
    intro s h0
    have hz : s.currentPosition ≠ 0 := by rw [h0]; push_cast; omega
    cases hret : env.retHit s.currentPosition with
    | true =>
      have heq : msLoop env true false (n + 1) s = retLimitBranch env s := by
        simp [msLoop, hret]
      rw [heq, retLimitBranch_free env s hl, if_neg hz]
      exact ⟨rfl, rfl, rfl, rfl, rfl, rfl, rfl, fun _ => rfl⟩
    | false =>
      have heq : msLoop env true false (n + 1) s =
          msLoop env true false n (pulseStep env false s) := by
        simp [msLoop, hret]
      rw [heq, pulseStep_bwd env s (hl _)]
      obtain ⟨c1, c2, c3, c4, c5, c6, c7, c8⟩ := ih
        { s with currentPosition := s.currentPosition + -1,
                 pulses := s.pulses + 1, tick := s.tick + 1 }
        (by simp [h0])
      exact ⟨c1, by simpa using c2, by simpa using c3, by simpa using c4,
             by simpa using c5, by simpa using c6, by simpa using c7,
             fun h => c8 (by simpa using h)⟩

/-- `moveToPosition` under an exact end-stop environment (deployed switch
at `D`, retracted switch at 0) with all locks succeeding: the position
reaches the target clamped below at 0, and no calibration field changes. -/
theorem moveToPosition_exact (env : Env) (hl : locksFree env) (D : Int)
    (hd : ∀ p, env.depHit p = decide (D ≤ p))
    (hr : ∀ p, env.retHit p = decide (p ≤ 0))
    (t : Int) (s : MCState)
    (h0 : 0 ≤ s.currentPosition) (ht : t ≤ D) :
    (moveToPosition env t s).currentPosition = max t 0 ∧
    (moveToPosition env t s).deployedPosition = s.deployedPosition ∧
    (moveToPosition env t s).safeDeployedPosition = s.safeDeployedPosition ∧
    (moveToPosition env t s).safetyBuffer = s.safetyBuffer ∧
    (moveToPosition env t s).calibrated = s.calibrated ∧
    (moveToPosition env t s).retractedPosition = s.retractedPosition := by
  unfold moveToPosition
  rw [getPosition_ok env s (hl _)]
  dsimp only
  by_cases hc : t - s.currentPosition = 0
  · rw [if_pos hc]
    refine ⟨?_, rfl, rfl, rfl, rfl, rfl⟩
    simp
    omega
  · rw [if_neg hc]
    unfold moveSteps
    rw [if_neg hc]
    by_cases hgt : (0 : Int) < t - s.currentPosition
    · rw [decide_eq_true hgt]
      rw [msLoop_fwd_exact env hl D hd _ _ (by dsimp only; omega)]
      refine ⟨?_, by simp, by simp, by simp, by simp, by simp⟩
      dsimp only
      omega
    · rw [decide_eq_false hgt]
      obtain ⟨c1, c2, c3, c4, c5, c6, _, _⟩ :=
        msLoop_bwd_exact env hl hr ((t - s.currentPosition).natAbs)
          { s with tick := s.tick + 1 } (by simpa using h0)
      refine ⟨?_, by simpa using c2, by simpa using c3, by simpa using c4,
              by simpa using c5, by simpa using c6⟩
      rw [c1]
      dsimp only
      omega

/-- `calibrate` with all locks succeeding, up to its final `retract()`:
explicit form of the state handed to the retract call. -/
theorem calibrate_free (env : Env) (s : MCState) (hl : locksFree env) :
    calibrate env s = retract env (preRetractState env s) := by
  unfold calibrate saveCurrentCalibration preRetractState
  dsimp only
  rw [setPosition_ok env 0 _ (hl _)]
  dsimp only
  rw [setPosition_ok env _ _ (hl _)]

/-- A guarded `retract` from a calibrated state whose position is the
nonnegative integer `c`, with all locks succeeding: the position reaches 0
(whatever the retracted switch does), and no calibration field changes. -/
theorem retract_free_toZero (env : Env) (hl : locksFree env) (c : Nat)
    (s : MCState) (hcal : s.calibrated = true)
    (hret0 : s.retractedPosition = 0)
    (hpos : s.currentPosition = (c : Int)) :
    (retract env s).currentPosition = 0 ∧
    (retract env s).deployedPosition = s.deployedPosition ∧
    (retract env s).safeDeployedPosition = s.safeDeployedPosition ∧
    (retract env s).safetyBuffer = s.safetyBuffer ∧
    (retract env s).calibrated = s.calibrated ∧
    (retract env s).saves = s.saves ∧
    (retract env s).eeprom = s.eeprom ∧
    (retract env s).retractedPosition = 0 := by
  have hre : retract env s = moveToPosition env s.retractedPosition s := by
    simp [retract, hcal]
  rw [hre, hret0]
  unfold moveToPosition
  rw [getPosition_ok env s (hl _)]
  dsimp only
  by_cases h0 : (0 : Int) - s.currentPosition = 0
  · rw [if_pos h0]
    exact ⟨by dsimp only; omega, rfl, rfl, rfl, rfl, rfl, rfl,
           by dsimp only; exact hret0⟩
  · rw [if_neg h0]
    unfold moveSteps
    rw [if_neg h0]
    rw [decide_eq_false (by omega : ¬ (0 : Int) < 0 - s.currentPosition)]
    have hnab : (0 - s.currentPosition).natAbs = c := by omega
    rw [hnab]
    obtain ⟨c1, c2, c3, c4, c5, c6, c7, c8⟩ :=
      msLoop_bwd_toZero env hl c { s with tick := s.tick + 1 }
        (by dsimp only; exact hpos)
    exact ⟨c1, by simpa using c2, by simpa using c3, by simpa using c4,
           by simpa using c5, by simpa using c6, by simpa using c7,
           c8 (by dsimp only; exact hret0)⟩

/-- C1 (amended): for every sequence of `moveSteps` calls with
`checkLimits = true`, if every lock acquisition succeeds, the deployed-limit
switch asserts monotonically upward and asserts at the recorded deployed
endpoint, and the retracted-limit switch asserts monotonically downward and
asserts at 0, then the tracked Position never exceeds the current deployed
endpoint nor goes below 0 — no overshoot occurs at all under these
conditions. -/
theorem C1_position_bounds (env : Env) (s : MCState) (calls : List Int)
    (hl : locksFree env)
    (hmd : ∀ p q : Int, p ≤ q → env.depHit p = true → env.depHit q = true)
    (hmr : ∀ p q : Int, q ≤ p → env.retHit p = true → env.retHit q = true)
    (hr0 : env.retHit 0 = true)
    (hdep : env.depHit s.deployedPosition = true)
    (h0 : 0 ≤ s.currentPosition) (h1 : s.currentPosition ≤ s.deployedPosition) :
    0 ≤ (runMoves env calls s).currentPosition ∧
    (runMoves env calls s).currentPosition ≤
      (runMoves env calls s).deployedPosition := by
  obtain ⟨a, b, _⟩ := runMoves_posInv env hl hmd hmr hr0 calls s h0 h1 hdep
  exact ⟨a, b⟩

theorem C1_position_bounds_witness :
    0 ≤ (runMoves allHitEnv [5, -3] (initState ⟨0, 0, 0⟩)).currentPosition ∧
    (runMoves allHitEnv [5, -3] (initState ⟨0, 0, 0⟩)).currentPosition ≤
      (runMoves allHitEnv [5, -3] (initState ⟨0, 0, 0⟩)).deployedPosition :=
  C1_position_bounds allHitEnv (initState ⟨0, 0, 0⟩) [5, -3]
    (fun _ => rfl) (fun _ _ _ h => h) (fun _ _ _ h => h) rfl rfl
    (by decide) (by decide)

/-- C1 (counterexample): with the limit-switch inputs as unconstrained
environment parameters the stated bound fails: under switches that never
assert, a single `moveSteps 8` call with `checkLimits = true` from a
calibrated state with deployed endpoint 5 emits all 8 pulses and leaves
Position at 8 > 5 in the final state, with no correcting snap (no
persistence was invoked) — not a single momentary overshoot pulse. -/
theorem C1_counterexample :
    (runMoves freeEnv [8] cal5State).currentPosition = 8 ∧
    (runMoves freeEnv [8] cal5State).deployedPosition = 5 ∧
    (runMoves freeEnv [8] cal5State).saves = 0 ∧
    (runMoves freeEnv [8] cal5State).pulses = 8 := by decide

/-- C2: a forward (deploy-direction) `moveSteps` with `checkLimits = true`,
with the deployed-limit switch asserted before the first pulse and Position
different from the recorded deployed endpoint, aborts all remaining steps
(no pulse is emitted), overwrites the deployed endpoint with the current
Position, recomputes the safe endpoint as the new endpoint minus the safety
buffer, persists exactly once, and snaps Position to the new endpoint. -/
theorem C2_deployed_limit_correction (env : Env) (s : MCState) (steps : Int)
    (hl : locksFree env) (hpos : 0 < steps)
    (hhit : env.depHit s.currentPosition = true)
    (hne : s.currentPosition ≠ s.deployedPosition) :
    (moveSteps env steps true s).pulses = s.pulses ∧
    (moveSteps env steps true s).deployedPosition = s.currentPosition ∧
    (moveSteps env steps true s).safeDeployedPosition =
      s.currentPosition - s.safetyBuffer ∧
    (moveSteps env steps true s).saves = s.saves + 1 ∧
    (moveSteps env steps true s).eeprom =
      ⟨EEPROM_MAGIC_NUMBER, s.currentPosition, s.safetyBuffer⟩ ∧
    (moveSteps env steps true s).currentPosition =
      (moveSteps env steps true s).deployedPosition := by
  unfold moveSteps
  rw [if_neg (by omega), decide_eq_true hpos]
  obtain ⟨n, hn⟩ : ∃ n, steps.natAbs = n + 1 := ⟨steps.natAbs - 1, by omega⟩
  rw [hn]
  have heq : msLoop env true true (n + 1) s = depLimitBranch env s := by
    simp [msLoop, hhit]
  rw [heq, depLimitBranch_free env s hl, if_neg hne]
  exact ⟨rfl, rfl, rfl, rfl, rfl, rfl⟩

theorem C2_deployed_limit_correction_witness :
    (moveSteps envOvershoot 100 true sOvershoot).deployedPosition = 12050 ∧
    (moveSteps envOvershoot 100 true sOvershoot).safeDeployedPosition = 11850 ∧
    (moveSteps envOvershoot 100 true sOvershoot).saves = 1 ∧
    (moveSteps envOvershoot 100 true sOvershoot).pulses = 0 ∧
    (moveSteps envOvershoot 100 true sOvershoot).currentPosition = 12050 := by
  have h := C2_deployed_limit_correction envOvershoot sOvershoot 100
    (fun _ => rfl) (by decide) (by decide) (by decide)
  refine ⟨?_, ?_, ?_, ?_, ?_⟩
  · rw [h.2.1]; decide
  · rw [h.2.2.1]; decide
  · rw [h.2.2.2.1]; decide
  · rw [h.1]; decide
  · rw [h.2.2.2.2.2, h.2.1]; decide

/-- C3: after a `calibrate()` run with all locks succeeding whose deployed
seek finds the deployed-limit switch within the step budget, the retracted
endpoint is 0, the deployed endpoint equals the counted step total of the
deployed seek, the safe endpoint equals the deployed endpoint minus the
safety buffer, the state is calibrated, endpoint and buffer are persisted
(exactly one save), and the concluding `retract()` has returned Position
to the home position 0. -/
theorem C3_calibration_postcondition (env : Env) (s : MCState)
    (hl : locksFree env)
    (_hfound : ∃ k, k < maxCalibrationSteps ∧ env.depSeek k = true) :
    (calibrate env s).retractedPosition = 0 ∧
    (calibrate env s).deployedPosition =
      (seekSteps env.depSeek maxCalibrationSteps 0 : Int) ∧
    (calibrate env s).safeDeployedPosition =
      (calibrate env s).deployedPosition - (calibrate env s).safetyBuffer ∧
    (calibrate env s).safetyBuffer = s.safetyBuffer ∧
    (calibrate env s).calibrated = true ∧
    (calibrate env s).eeprom = ⟨EEPROM_MAGIC_NUMBER,
      (seekSteps env.depSeek maxCalibrationSteps 0 : Int), s.safetyBuffer⟩ ∧
    (calibrate env s).saves = s.saves + 1 ∧
    (calibrate env s).currentPosition = 0 := by
  rw [calibrate_free env s hl]
  obtain ⟨r1, r2, r3, r4, r5, r6, r7, r8⟩ :=
    retract_free_toZero env hl (seekSteps env.depSeek maxCalibrationSteps 0)
      (preRetractState env s) rfl rfl rfl
  refine ⟨r8, ?_, ?_, ?_, ?_, ?_, ?_, r1⟩
  · rw [r2]; rfl
  · rw [r3, r2, r4]; rfl
  · rw [r4]; rfl
  · rw [r5]; rfl
  · rw [r7]; rfl
  · rw [r6]; rfl

theorem C3_calibration_postcondition_witness :
    (calibrate calibEnv (initState ⟨0, 0, 0⟩)).retractedPosition = 0 ∧
    (calibrate calibEnv (initState ⟨0, 0, 0⟩)).deployedPosition =
      (seekSteps calibEnv.depSeek maxCalibrationSteps 0 : Int) ∧
    (calibrate calibEnv (initState ⟨0, 0, 0⟩)).safeDeployedPosition =
      (calibrate calibEnv (initState ⟨0, 0, 0⟩)).deployedPosition -
        (calibrate calibEnv (initState ⟨0, 0, 0⟩)).safetyBuffer ∧
    (calibrate calibEnv (initState ⟨0, 0, 0⟩)).safetyBuffer =
      (initState ⟨0, 0, 0⟩).safetyBuffer ∧
    (calibrate calibEnv (initState ⟨0, 0, 0⟩)).calibrated = true ∧
    (calibrate calibEnv (initState ⟨0, 0, 0⟩)).eeprom = ⟨EEPROM_MAGIC_NUMBER,
      (seekSteps calibEnv.depSeek maxCalibrationSteps 0 : Int),
      (initState ⟨0, 0, 0⟩).safetyBuffer⟩ ∧
    (calibrate calibEnv (initState ⟨0, 0, 0⟩)).saves =
      (initState ⟨0, 0, 0⟩).saves + 1 ∧
    (calibrate calibEnv (initState ⟨0, 0, 0⟩)).currentPosition = 0 :=
  C3_calibration_postcondition calibEnv (initState ⟨0, 0, 0⟩)
    (fun _ => rfl) ⟨5, by decide⟩

/-- C4: while uncalibrated, `deploy()` and `retract()` return with the
state completely unchanged — in particular no output pulse is emitted and
Position, endpoints and the calibration flag are untouched. -/
theorem C4_uncalibrated_rejection (env : Env) (s : MCState)
    (h : s.calibrated = false) :
    deploy env s = s ∧ retract env s = s := by
  constructor <;> simp [deploy, retract, h]

theorem C4_uncalibrated_rejection_witness :
    deploy freeEnv (initState ⟨0, 0, 0⟩) = initState ⟨0, 0, 0⟩ ∧
    retract freeEnv (initState ⟨0, 0, 0⟩) = initState ⟨0, 0, 0⟩ :=
  C4_uncalibrated_rejection freeEnv (initState ⟨0, 0, 0⟩) rfl

/-- C5: `loadCalibration` succeeds exactly when the magic marker matches
and the stored deployed endpoint lies in (0, 100000]; on any failing record
`loadStoredCalibration` reports false and leaves the whole state (the
calibrated flag included) unchanged. -/
theorem C5_load_validation (s : MCState) :
    ((loadCalibration s.eeprom).isSome ↔
      (s.eeprom.magic = EEPROM_MAGIC_NUMBER ∧
       0 < s.eeprom.deployed ∧ s.eeprom.deployed ≤ 100000)) ∧
    (loadCalibration s.eeprom = none →
      (loadStoredCalibration s).1 = false ∧ (loadStoredCalibration s).2 = s) := by
  constructor
  · unfold loadCalibration
    by_cases h1 : s.eeprom.magic = EEPROM_MAGIC_NUMBER <;>
      by_cases h2 : s.eeprom.deployed ≤ 0 ∨ 100000 < s.eeprom.deployed <;>
        simp [h1, h2] <;> omega
  · intro h
    simp [loadStoredCalibration, h]

theorem C5_load_validation_witness :
    (loadStoredCalibration (initState ⟨0, 500, 200⟩)).1 = false ∧
    (loadStoredCalibration (initState ⟨0, 500, 200⟩)).2 =
      initState ⟨0, 500, 200⟩ :=
  (C5_load_validation (initState ⟨0, 500, 200⟩)).2 (by decide)

/-- C6: enqueuing command A and then command B before either is consumed
(with both enqueues and the dequeue acquiring the lock) makes the next
dequeue-and-clear observe only B, and leaves the mailbox empty: A is lost,
not queued or merged. -/
theorem C6_mailbox_overwrite (env : Env) (s : MCState) (a b : MotorCommand)
    (h1 : env.lockOk s.tick = true)
    (h2 : env.lockOk (s.tick + 1) = true)
    (h3 : env.lockOk (s.tick + 1 + 1) = true) :
    (dequeueAndClear env (queueCommand env b (queueCommand env a s))).1 =
      some b ∧
    (dequeueAndClear env
        (queueCommand env b (queueCommand env a s))).2.pendingCommand =
      MotorCommand.CMD_NONE := by
  simp [queueCommand, dequeueAndClear, tryLock, h1, h2, h3]

theorem C6_mailbox_overwrite_witness :
    (dequeueAndClear freeEnv (queueCommand freeEnv MotorCommand.CMD_RETRACT
        (queueCommand freeEnv MotorCommand.CMD_DEPLOY
          (initState ⟨0, 0, 0⟩)))).1 = some MotorCommand.CMD_RETRACT ∧
    (dequeueAndClear freeEnv (queueCommand freeEnv MotorCommand.CMD_RETRACT
        (queueCommand freeEnv MotorCommand.CMD_DEPLOY
          (initState ⟨0, 0, 0⟩)))).2.pendingCommand =
      MotorCommand.CMD_NONE :=
  C6_mailbox_overwrite freeEnv (initState ⟨0, 0, 0⟩)
    MotorCommand.CMD_DEPLOY MotorCommand.CMD_RETRACT rfl rfl rfl

/-- C7 (counterexample): the MotorControl class additionally exposes
`getQueuedCommand` (MotorControl.h 40-43, MotorControl.cpp 103-112), which
returns the pending command while leaving it pending — an exposed
peek-without-clear — so the mailbox interface is not limited to a single
atomic dequeue-and-clear operation. -/
theorem C7_counterexample :
    (getQueuedCommand freeEnv pendState).1 = MotorCommand.CMD_DEPLOY ∧
    (getQueuedCommand freeEnv pendState).2.pendingCommand =
      MotorCommand.CMD_DEPLOY := by decide

/-- C7 (amended): the control task's inline dequeue (main.cpp 258-263)
does read the pending command and reset it to CMD_NONE atomically within a
single locked critical section (exactly one lock acquisition). -/
theorem C7_dequeue_atomic (env : Env) (s : MCState)
    (h : env.lockOk s.tick = true) :
    (dequeueAndClear env s).1 = some s.pendingCommand ∧
    (dequeueAndClear env s).2.pendingCommand = MotorCommand.CMD_NONE ∧
    (dequeueAndClear env s).2.tick = s.tick + 1 := by
  simp [dequeueAndClear, tryLock, h]

theorem C7_dequeue_atomic_witness :
    (dequeueAndClear freeEnv pendState).1 = some pendState.pendingCommand ∧
    (dequeueAndClear freeEnv pendState).2.pendingCommand =
      MotorCommand.CMD_NONE ∧
    (dequeueAndClear freeEnv pendState).2.tick = pendState.tick + 1 :=
  C7_dequeue_atomic freeEnv pendState rfl

/-- C8 (counterexample): `getPosition` does not return the last
successfully cached value on a lock timeout: with Position 7, a first
(successful) read returns 7, but a second read whose lock acquisition
times out returns the local default 0 even though the tracked Position is
still 7. -/
theorem C8_counterexample :
    (getPosition firstLockEnv posState).1 = 7 ∧
    (getPosition firstLockEnv (getPosition firstLockEnv posState).2).1 = 0 ∧
    (getPosition firstLockEnv
        (getPosition firstLockEnv posState).2).2.currentPosition = 7 := by
  decide

/-- C8 (amended): when the mutex acquisition times out, `getPosition`
returns the local default 0 and changes nothing (single attempt, no retry,
no error), and `setPosition` silently drops the write, leaving the state
unchanged apart from the consumed lock attempt. -/
theorem C8_lock_timeout_degradation (env : Env) (s : MCState) (p : Int)
    (h : env.lockOk s.tick = false) :
    (getPosition env s).1 = 0 ∧
    (getPosition env s).2 = { s with tick := s.tick + 1 } ∧
    setPosition env p s = { s with tick := s.tick + 1 } := by
  refine ⟨?_, ?_, ?_⟩ <;> simp [getPosition, setPosition, tryLock, h]

theorem C8_lock_timeout_degradation_witness :
    (getPosition lockFailEnv posState).1 = 0 ∧
    (getPosition lockFailEnv posState).2 =
      { posState with tick := posState.tick + 1 } ∧
    setPosition lockFailEnv 42 posState =
      { posState with tick := posState.tick + 1 } :=
  C8_lock_timeout_degradation lockFailEnv posState 42 rfl

/-- C9: from a calibrated state (range relation holding, nonnegative
buffer, position within the calibrated range), with the limit switches
asserting exactly at the true endpoints (deployed switch at and beyond the
deployed endpoint, retracted switch at and below 0) and every lock
acquisition succeeding, `deploy()` followed by `retract()` returns
Position to exactly 0. -/
theorem C9_deploy_then_retract (env : Env) (s : MCState)
    (hl : locksFree env)
    (hd : ∀ p, env.depHit p = decide (s.deployedPosition ≤ p))
    (hr : ∀ p, env.retHit p = decide (p ≤ 0))
    (hcal : s.calibrated = true) (hret0 : s.retractedPosition = 0)
    (hsafe : s.safeDeployedPosition = s.deployedPosition - s.safetyBuffer)
    (hbuf : 0 ≤ s.safetyBuffer)
    (h0 : 0 ≤ s.currentPosition)
    (h1 : s.currentPosition ≤ s.deployedPosition) :
    (retract env (deploy env s)).currentPosition = 0 := by
  have hde : deploy env s = moveToPosition env s.safeDeployedPosition s := by
    simp [deploy, hcal]
  obtain ⟨d1, d2, d3, d4, d5, d6⟩ :=
    moveToPosition_exact env hl s.deployedPosition hd hr
      s.safeDeployedPosition s h0 (by omega)
  rw [hde]
  have hcal1 : (moveToPosition env s.safeDeployedPosition s).calibrated = true := by
    rw [d5]; exact hcal
  have hre : retract env (moveToPosition env s.safeDeployedPosition s) =
      moveToPosition env
        (moveToPosition env s.safeDeployedPosition s).retractedPosition
        (moveToPosition env s.safeDeployedPosition s) := by
    simp [retract, hcal1]
  rw [hre]
  obtain ⟨e1, _, _, _, _, _⟩ :=
    moveToPosition_exact env hl s.deployedPosition hd hr
      (moveToPosition env s.safeDeployedPosition s).retractedPosition
      (moveToPosition env s.safeDeployedPosition s)
      (by rw [d1]; exact le_max_right _ _)
      (by rw [d6, hret0]; omega)
  rw [e1, d6, hret0]
  simp

theorem C9_deploy_then_retract_witness :
    (retract envTen (deploy envTen calTenState)).currentPosition = 0 :=
  C9_deploy_then_retract envTen calTenState (fun _ => rfl) (fun _ => rfl)
    (fun _ => rfl) rfl rfl (by decide) (by decide) (by decide) (by decide)

/-- C10: in every reachable state with the calibrated flag set,
`safeDeployedPosition` equals `deployedPosition - safetyBuffer` and the
retracted endpoint is 0; every operation that assigns `deployedPosition`
or `safetyBuffer` (calibrate, loadStoredCalibration, and the moveSteps
deployed-limit correction) re-establishes this relation before
returning. -/
theorem C10_calibrated_range_invariant (s : MCState) (h : Reachable s)
    (hc : s.calibrated = true) :
    s.safeDeployedPosition = s.deployedPosition - s.safetyBuffer ∧
    s.retractedPosition = 0 :=
  calibOK_reachable s h hc

theorem C10_calibrated_range_invariant_witness :
    (applyOp freeEnv MotorOp.loadStored
        (initState validEEPROM)).safeDeployedPosition =
      (applyOp freeEnv MotorOp.loadStored
          (initState validEEPROM)).deployedPosition -
        (applyOp freeEnv MotorOp.loadStored
            (initState validEEPROM)).safetyBuffer ∧
    (applyOp freeEnv MotorOp.loadStored
        (initState validEEPROM)).retractedPosition = 0 :=
  C10_calibrated_range_invariant _
    (Reachable.step freeEnv MotorOp.loadStored _ (Reachable.boot validEEPROM))
    (by decide)

end BirbBlinds
